import Mathlib

/-!
# Verification of the foxxy-ai orchestration core

Shallow embedding, in Lean 4, of the task-orchestration and monitoring logic
of the foxxy-ai backend (`backend/agent/seek_mode.py`, `agent_loop.py`,
`websocket_manager.py`, `vision.py`, `pure_vision.py`), together with proofs
and refutations of the behavioural claims made by the specification.

Python dictionaries are modelled as association lists keyed by strings;
Python floats are modelled as rationals (all numeric claims under scrutiny
are exact at the inputs involved); a Python dict return value whose key set
differs between branches is modelled as a structure of `Option` fields, where
`none` renders a key that is absent from the returned dict (what `.get`
reports as `None`).
-/

set_option autoImplicit false

namespace Foxxy

/-! ## Association-list model of Python dicts -/

/-- First value bound to key `k`, as `d.get(k)` / `d[k]` on a Python dict. -/
def lookupKey {β : Type} (m : List (String × β)) (k : String) : Option β :=
  (m.find? (fun p => p.1 = k)).map (fun p => p.2)

/-- Membership test, as Python `k in d`. -/
def containsKey {β : Type} (m : List (String × β)) (k : String) : Bool :=
  (lookupKey m k).isSome

/-- Overwrite the value at an existing key, as `d[k] = v` when `k in d`. -/
def setKey {β : Type} (m : List (String × β)) (k : String) (v : β) :
    List (String × β) :=
  m.map (fun p => if p.1 = k then (p.1, v) else p)

/-- Remove a key, as `d.pop(k, None)` / `del d[k]`. -/
def removeKey {β : Type} (m : List (String × β)) (k : String) :
    List (String × β) :=
  m.filter (fun p => p.1 ≠ k)

/-- `d[k] = v` on a Python dict: overwrite if present, append otherwise. -/
def insertKey {β : Type} (m : List (String × β)) (k : String) (v : β) :
    List (String × β) :=
  if containsKey m k then setKey m k v else m ++ [(k, v)]

theorem lookupKey_nil {β : Type} (k : String) :
    lookupKey ([] : List (String × β)) k = none := rfl

theorem lookupKey_cons {β : Type} (p : String × β) (m : List (String × β))
    (k : String) :
    lookupKey (p :: m) k = if p.1 = k then some p.2 else lookupKey m k := by
  by_cases h : p.1 = k <;> simp [lookupKey, List.find?, h]

theorem lookupKey_setKey_self {β : Type} (m : List (String × β)) (k : String)
    (v : β) (h : containsKey m k = true) :
    lookupKey (setKey m k v) k = some v := by
  induction m with
  | nil => simp [containsKey, lookupKey] at h
  | cons p t ih =>
    by_cases hp : p.1 = k
    · simp [setKey, lookupKey_cons, hp]
    · have h' : containsKey t k = true := by
        simpa [containsKey, lookupKey_cons, hp] using h
      simpa [setKey, lookupKey_cons, hp] using ih h'

theorem setKey_cons {β : Type} (p : String × β) (t : List (String × β))
    (k : String) (v : β) :
    setKey (p :: t) k v =
      (if p.1 = k then (p.1, v) else p) :: setKey t k v := by
  by_cases hp : p.1 = k <;> simp [setKey, hp]

theorem containsKey_cons {β : Type} (p : String × β) (t : List (String × β))
    (k : String) :
    containsKey (p :: t) k = (if p.1 = k then true else containsKey t k) := by
  by_cases hp : p.1 = k <;> simp [containsKey, lookupKey_cons, hp]

theorem lookupKey_setKey_other {β : Type} (m : List (String × β))
    (k k' : String) (v : β) (h : k' ≠ k) :
    lookupKey (setKey m k v) k' = lookupKey m k' := by
  induction m with
  | nil => rfl
  | cons p t ih =>
    rw [setKey_cons]
    by_cases hp : p.1 = k
    · have hk' : ¬ k = k' := fun hc => h hc.symm
      rw [if_pos hp]
      simp [lookupKey_cons, hp, hk', ih]
    · rw [if_neg hp, lookupKey_cons, lookupKey_cons]
      by_cases hq : p.1 = k'
      · rw [if_pos hq, if_pos hq]
      · rw [if_neg hq, if_neg hq]; exact ih

theorem setKey_absent {β : Type} (m : List (String × β))
    (k : String) (v : β) (h : containsKey m k = false) :
    setKey m k v = m := by
  induction m with
  | nil => rfl
  | cons p t ih =>
    rw [containsKey_cons] at h
    by_cases hp : p.1 = k
    · rw [if_pos hp] at h; exact absurd h (by simp)
    · rw [if_neg hp] at h
      rw [setKey_cons, if_neg hp, ih h]

/-! ## ThresholdTracker: `SeekMode._check_threshold`

The class body of `SeekMode` defines `_check_threshold` twice; the later
definition (seek_mode.py lines 1123-1160, taking `Optional[float]`) shadows
the earlier one and is the one in force at runtime.  Its per-task state lives
in `self.dom_thresholds : Dict[str, Dict]`; an entry is created by
`start_dom_seek` / `_seek_dom_threshold` with `last_value = None` and
`threshold_crossed = False`. -/

/-- One entry of `self.dom_thresholds`, as written by `start_dom_seek`
(seek_mode.py lines 400-406 / 969-975). -/
structure DomConfig where
  css_selector : String
  threshold : ℚ
  operator : String
  last_value : Option ℚ
  threshold_crossed : Bool
deriving Repr, DecidableEq

/-- The dict returned by `_check_threshold`.  The `None`-value branch returns
only the keys `crossed` and `reason`; the main branch returns `crossed`,
`condition_met`, `current_value`, `last_value` and `is_new_crossing`.  A field
that is `none` models a key absent from the returned dict. -/
structure CheckResult where
  crossed : Bool
  reason : Option String
  condition_met : Option Bool
  current_value : Option ℚ
  last_value : Option (Option ℚ)
  is_new_crossing : Option Bool
deriving Repr, DecidableEq, Inhabited

/-- The operator dispatch of `_check_threshold` (seek_mode.py lines 1133-1145):
an if/elif chain over the six operator strings, with `crossed` initialised to
`False` so that an unknown operator leaves it `False`.  `==` and `!=` compare
with an epsilon of `0.001`. -/
def crossedOf (operator : String) (current_value threshold : ℚ) : Bool :=
  if operator = ">" then current_value > threshold
  else if operator = "<" then current_value < threshold
  else if operator = ">=" then current_value ≥ threshold
  else if operator = "<=" then current_value ≤ threshold
  else if operator = "==" then |current_value - threshold| < 1/1000
  else if operator = "!=" then |current_value - threshold| ≥ 1/1000
  else false

/-- The dummy read targets of `config = self.dom_thresholds.get(task_id, {})`
when the task id is unregistered: on the empty dict, `config.get("last_value")`
is `None` and `config.get("threshold_crossed", False)` is `False`; writes to
that temporary dict are discarded.  Only those two fields are ever read. -/
def emptyConfig : DomConfig :=
  { css_selector := "", threshold := 0, operator := "", last_value := none,
    threshold_crossed := false }

/-- `SeekMode._check_threshold` (seek_mode.py lines 1123-1160).  Returns the
result dict together with the `dom_thresholds` map after the call; the map is
updated in place only when the task id is registered (otherwise the mutation
hits the temporary `{}` default and is lost). -/
def checkThreshold (current_value : Option ℚ) (threshold : ℚ)
    (operator : String) (task_id : String) (m : List (String × DomConfig)) :
    CheckResult × List (String × DomConfig) :=
  match current_value with
  | none =>
      ({ crossed := false, reason := some "No numerical value found",
         condition_met := none, current_value := none, last_value := none,
         is_new_crossing := none }, m)
  | some v =>
      let config := (lookupKey m task_id).getD emptyConfig
      let lastValue := config.last_value
      let crossed := crossedOf operator v threshold
      let previouslyCrossed := config.threshold_crossed
      let isNewCrossing := crossed && !previouslyCrossed
      let config2 := { config with last_value := some v,
                                   threshold_crossed := crossed }
      let m2 := if containsKey m task_id then setKey m task_id config2 else m
      ({ crossed := isNewCrossing, reason := none,
         condition_met := some crossed, current_value := some v,
         last_value := some lastValue, is_new_crossing := some isNewCrossing },
       m2)

/-- Feeding a sequence of samples through `_check_threshold` for one task id
with a fixed threshold and operator, collecting the results. -/
def runSamples (threshold : ℚ) (operator : String) (task_id : String) :
    List (String × DomConfig) → List ℚ →
    List CheckResult × List (String × DomConfig)
  | m, [] => ([], m)
  | m, v :: vs =>
      let step := checkThreshold (some v) threshold operator task_id m
      let rest := runSamples threshold operator task_id step.2 vs
      (step.1 :: rest.1, rest.2)

/-- Edge detection over a boolean condition stream: given the stored flag
before the first sample, marks exactly the first sample of each maximal run of
consecutive true samples. -/
def edgeList : Bool → List Bool → List Bool
  | _, [] => []
  | prev, b :: bs => (b && !prev) :: edgeList b bs

/-- The state update `_check_threshold` performs on the stored config for one
sample: overwrite `last_value` with the sample and `threshold_crossed` with
whether the condition held. -/
def updConfig (threshold : ℚ) (operator : String) (cfg : DomConfig) (v : ℚ) :
    DomConfig :=
  { cfg with last_value := some v,
             threshold_crossed := crossedOf operator v threshold }

theorem edgeList_length (p : Bool) (bs : List Bool) :
    (edgeList p bs).length = bs.length := by
  induction bs generalizing p with
  | nil => rfl
  | cons b bs ih => simp [edgeList, ih]

theorem edgeList_getD (p : Bool) (bs : List Bool) (i : ℕ)
    (hi : i < bs.length) :
    (edgeList p bs).getD i false =
      (bs.getD i false && !(if i = 0 then p else bs.getD (i - 1) false)) := by
  induction bs generalizing p i with
  | nil => exact absurd hi (by simp)
  | cons b bs ih =>
    match i with
    | 0 => simp [edgeList]
    | n + 1 =>
      have hn : n < bs.length := by simpa using hi
      have := ih b n hn
      match n with
      | 0 => simpa [edgeList] using this
      | m + 1 => simpa [edgeList] using this

theorem foldl_updConfig_take (threshold : ℚ) (operator : String)
    (l : List ℚ) (c : DomConfig) (i : ℕ) (hi : i < l.length) :
    List.foldl (updConfig threshold operator) c (l.take (i + 1)) =
      { c with last_value := some (l.getD i 0),
               threshold_crossed := crossedOf operator (l.getD i 0) threshold } := by
  induction l generalizing c i with
  | nil => exact absurd hi (by simp)
  | cons v vs ih =>
    match i with
    | 0 => simp [updConfig]
    | n + 1 =>
      have hn : n < vs.length := by simpa using hi
      have := ih (updConfig threshold operator c v) n hn
      simpa [updConfig] using this

/-- Core run lemma for the edge-triggered tracker: starting from a registered
config `c`, feeding the samples through `_check_threshold` reports
`is_new_crossing` exactly as the edge detection of the condition stream seeded
with the stored flag, and leaves the stored config equal to the fold of the
per-sample update. -/
theorem runSamples_spec (threshold : ℚ) (operator : String) (task_id : String)
    (samples : List ℚ) (m : List (String × DomConfig)) (c : DomConfig)
    (h : lookupKey m task_id = some c) :
    (runSamples threshold operator task_id m samples).1.map
        (fun r => r.is_new_crossing) =
      (edgeList c.threshold_crossed
        (samples.map (fun v => crossedOf operator v threshold))).map some ∧
    lookupKey (runSamples threshold operator task_id m samples).2 task_id =
      some (List.foldl (updConfig threshold operator) c samples) := by
  induction samples generalizing m c with
  | nil => exact ⟨rfl, by simpa [runSamples] using h⟩
  | cons v vs ih =>
    have hmem : containsKey m task_id = true := by
      simp [containsKey, h]
    have hlook : lookupKey
        (setKey m task_id (updConfig threshold operator c v)) task_id =
        some (updConfig threshold operator c v) :=
      lookupKey_setKey_self m task_id _ hmem
    have hrec := ih (setKey m task_id (updConfig threshold operator c v))
      (updConfig threshold operator c v) hlook
    constructor
    · simp only [runSamples, checkThreshold, h, hmem, Option.getD_some,
        if_pos, List.map_cons, edgeList, List.cons.injEq]
      exact ⟨trivial, by simpa [updConfig] using hrec.1⟩
    · simp only [runSamples, checkThreshold, h, hmem, Option.getD_some, if_pos,
        List.foldl_cons]
      simpa [updConfig] using hrec.2

theorem runSamples_length (threshold : ℚ) (operator : String)
    (task_id : String) (samples : List ℚ) (m : List (String × DomConfig)) :
    (runSamples threshold operator task_id m samples).1.length =
      samples.length := by
  induction samples generalizing m with
  | nil => rfl
  | cons v vs ih => simp [runSamples, ih]

/-- **C1** (edge-triggered crossing).  For every sequence of numeric samples
checked for one registered task id with a fixed threshold and one of the six
operators, `_check_threshold` reports `is_new_crossing = true` exactly on the
first sample of each maximal run of consecutive condition-met samples and
`false` on every later sample of that run (first conjunct: the reported stream
is the edge detection of the condition stream; second conjunct: sample `i` is
reported as a new crossing exactly when its condition holds and the condition
of sample `i-1` did not, the stored flag starting out `false`), and after each
call the stored `threshold_crossed` flag equals whether the condition held for
that sample (third conjunct). -/
theorem c1_edge_triggered_crossing (threshold : ℚ) (operator task_id : String)
    (samples : List ℚ) (m : List (String × DomConfig)) (c : DomConfig)
    (hreg : lookupKey m task_id = some c)
    (hflag : c.threshold_crossed = false) :
    (runSamples threshold operator task_id m samples).1.map
        (fun r => r.is_new_crossing) =
      (edgeList false
        (samples.map (fun v => crossedOf operator v threshold))).map some ∧
    (∀ i, i < samples.length →
      ((runSamples threshold operator task_id m samples).1.getD i
          default).is_new_crossing =
        some ((samples.map (fun v => crossedOf operator v threshold)).getD i
                false &&
              !(if i = 0 then false
                else (samples.map
                       (fun v => crossedOf operator v threshold)).getD
                       (i - 1) false))) ∧
    (∀ i, i < samples.length →
      lookupKey (runSamples threshold operator task_id m
          (samples.take (i + 1))).2 task_id =
        some { c with last_value := some (samples.getD i 0),
                      threshold_crossed :=
                        crossedOf operator (samples.getD i 0) threshold }) := by
  have hspec := runSamples_spec threshold operator task_id samples m c hreg
  have hmap := hspec.1
  rw [hflag] at hmap
  refine ⟨hmap, ?_, ?_⟩
  · intro i hi
    have hlen : i < (runSamples threshold operator task_id m samples).1.length := by
      rw [runSamples_length]; exact hi
    have hlenC : i < (samples.map
        (fun v => crossedOf operator v threshold)).length := by
      simpa using hi
    have hlenE : i < (edgeList false (samples.map
        (fun v => crossedOf operator v threshold))).length := by
      rw [edgeList_length]; exact hlenC
    have e1 : ((runSamples threshold operator task_id m samples).1.map
        (fun r => r.is_new_crossing)).getD i none =
        ((edgeList false (samples.map
          (fun v => crossedOf operator v threshold))).map some).getD i none := by
      rw [hmap]
    rw [List.getD_eq_getElem _ _ (by simpa using hlen),
        List.getD_eq_getElem _ _ (by simpa using hlenE),
        List.getElem_map, List.getElem_map] at e1
    rw [← List.getD_eq_getElem _ _ hlen, ← List.getD_eq_getElem _ _ hlenE]
      at e1
    rw [e1, edgeList_getD _ _ _ hlenC]
  · intro i hi
    have hreg' := (runSamples_spec threshold operator task_id
      (samples.take (i + 1)) m c hreg).2
    rw [foldl_updConfig_take threshold operator samples c i hi] at hreg'
    exact hreg'

/-- Witness for C1: threshold `-3.0`, operator `<`, samples
`[-1.0, -4.0, -5.0, -2.0, -6.0]` against a freshly registered task produce
new crossings exactly at indices 1 and 4 (reported stream
`[false, true, false, false, true]`), as obtained by instantiating
`c1_edge_triggered_crossing`. -/
theorem c1_edge_triggered_crossing_witness :
    ((runSamples (-3) "<" "task-1"
        [("task-1", { css_selector := "span.price", threshold := -3,
                      operator := "<", last_value := none,
                      threshold_crossed := false })]
        [-1, -4, -5, -2, -6]).1.map (fun r => r.is_new_crossing) =
      [some false, some true, some false, some false, some true]) ∧
    ((runSamples (-3) "<" "task-1"
        [("task-1", { css_selector := "span.price", threshold := -3,
                      operator := "<", last_value := none,
                      threshold_crossed := false })]
        [-1, -4, -5, -2, -6]).1.map (fun r => r.is_new_crossing) =
      (edgeList false
        ([-1, -4, -5, -2, -6].map (fun v => crossedOf "<" v (-3)))).map some) := by
  constructor
  · decide
  · exact (c1_edge_triggered_crossing (-3) "<" "task-1" [-1, -4, -5, -2, -6]
      [("task-1", { css_selector := "span.price", threshold := -3,
                    operator := "<", last_value := none,
                    threshold_crossed := false })]
      { css_selector := "span.price", threshold := -3, operator := "<",
        last_value := none, threshold_crossed := false } rfl rfl).1

/-- **C5, counterexample.**  The claim states that on an absent (`None`) sample
the check returns a result with `conditionMet = false` and
`isNewCrossing = false`.  In fact the `None` branch of `_check_threshold`
returns only `{"crossed": False, "reason": ...}`: the returned dict carries
neither a `condition_met` nor an `is_new_crossing` key (reading them back
gives `None`, not `False`), falsifying the claim as stated at this concrete
input even though the stored state is indeed unchanged. -/
theorem c5_counterexample :
    ¬ ((checkThreshold none (-3) "<" "task-1"
          [("task-1", { css_selector := "span.price", threshold := -3,
                        operator := "<", last_value := none,
                        threshold_crossed := false })]).1.condition_met =
            some false ∧
       (checkThreshold none (-3) "<" "task-1"
          [("task-1", { css_selector := "span.price", threshold := -3,
                        operator := "<", last_value := none,
                        threshold_crossed := false })]).1.is_new_crossing =
            some false ∧
       (checkThreshold none (-3) "<" "task-1"
          [("task-1", { css_selector := "span.price", threshold := -3,
                        operator := "<", last_value := none,
                        threshold_crossed := false })]).2 =
          [("task-1", { css_selector := "span.price", threshold := -3,
                        operator := "<", last_value := none,
                        threshold_crossed := false })]) := by
  decide

/-- **C5, amended.**  For every task id, threshold, operator and stored map,
when the current sample value is absent (`None`) `_check_threshold`
short-circuits to the dict `{"crossed": False, "reason": "No numerical value
found"}` — a result that reports no crossing and in which the
`condition_met` and `is_new_crossing` keys are absent (reading back as `None`,
i.e. falsy, rather than the literal `False` the claim states) — and the
stored per-task state (`last_value` and `threshold_crossed`) is left
completely unchanged by the call. -/
theorem c5_none_value_short_circuit (threshold : ℚ)
    (operator task_id : String) (m : List (String × DomConfig)) :
    checkThreshold none threshold operator task_id m =
      ({ crossed := false, reason := some "No numerical value found",
         condition_met := none, current_value := none, last_value := none,
         is_new_crossing := none }, m) := rfl

/-! ## SeekMode mutable state, `stop_seek` and `is_seeking`

`SeekMode.__init__` (seek_mode.py lines 352-361) owns the per-task maps.  The
class body defines `stop_seek` twice; the later definition (lines 1328-1335)
shadows the earlier one (lines 506-510) and is the one in force: it tests
membership in `active_seeks`, sets the flag to `False` (without deleting the
key), pops `screenshot_intervals` and `last_screenshots`, and returns `True`;
with no entry it returns `False`. -/

structure SeekState where
  active_seeks : List (String × Bool)
  dom_thresholds : List (String × DomConfig)
  screenshot_intervals : List (String × ℕ)
  last_screenshots : List (String × String)
deriving Repr, DecidableEq

/-- `SeekMode.stop_seek` (seek_mode.py lines 1328-1335), returning the Python
return value together with the state after the call. -/
def stop_seek (st : SeekState) (task_id : String) : Bool × SeekState :=
  if containsKey st.active_seeks task_id then
    (true,
     { st with
        active_seeks := setKey st.active_seeks task_id false,
        screenshot_intervals := removeKey st.screenshot_intervals task_id,
        last_screenshots := removeKey st.last_screenshots task_id })
  else (false, st)

/-- `SeekMode.is_seeking` (seek_mode.py lines 1344-1345):
`self.active_seeks.get(task_id, False)`. -/
def is_seeking (st : SeekState) (task_id : String) : Bool :=
  (lookupKey st.active_seeks task_id).getD false

theorem containsKey_setKey {β : Type} (m : List (String × β)) (k : String)
    (v : β) (h : containsKey m k = true) :
    containsKey (setKey m k v) k = true := by
  simp [containsKey, lookupKey_setKey_self m k v h]

theorem stop_seek_found (st : SeekState) (task_id : String)
    (h : containsKey st.active_seeks task_id = true) :
    stop_seek st task_id =
      (true,
       { st with
          active_seeks := setKey st.active_seeks task_id false,
          screenshot_intervals := removeKey st.screenshot_intervals task_id,
          last_screenshots := removeKey st.last_screenshots task_id }) := by
  simp [stop_seek, h]

theorem stop_seek_missing (st : SeekState) (task_id : String)
    (h : containsKey st.active_seeks task_id = false) :
    stop_seek st task_id = (false, st) := by
  simp [stop_seek, h]

/-- **C6, counterexample.**  The claim states that for a task id present in
the active-seeks map, stopping twice returns `true` then `false`.  In fact
`stop_seek` only sets the stored flag to `False` and never removes the key,
so the second call still finds the entry and returns `True` again: with state
`{"task-1": True}` both calls return `true`, falsifying the claim as stated
(the second call does not return `false`). -/
theorem c6_counterexample :
    (stop_seek { active_seeks := [("task-1", true)], dom_thresholds := [],
                 screenshot_intervals := [], last_screenshots := [] }
        "task-1").1 = true ∧
    ¬ ((stop_seek
          (stop_seek { active_seeks := [("task-1", true)],
                       dom_thresholds := [], screenshot_intervals := [],
                       last_screenshots := [] } "task-1").2 "task-1").1 =
        false) := by
  decide

/-- **C6, amended.**  For every task id whose entry exists in the active-seeks
map, calling `stop_seek` twice in succession returns `true` from the first
call and `true` again from the second call: `stop_seek` returns `true`
exactly when the task id has an entry in `active_seeks` (active or not), and
it sets the entry's flag to `False` without ever deleting the entry. -/
theorem c6_stop_twice_returns_true_true (st : SeekState) (task_id : String)
    (h : containsKey st.active_seeks task_id = true) :
    (stop_seek st task_id).1 = true ∧
    (stop_seek (stop_seek st task_id).2 task_id).1 = true := by
  rw [stop_seek_found st task_id h]
  refine ⟨rfl, ?_⟩
  rw [stop_seek_found _ task_id
    (containsKey_setKey st.active_seeks task_id false h)]

/-- Witness for C6 (amended): a concrete state with an active entry for
`"task-1"`, instantiating `c6_stop_twice_returns_true_true`. -/
theorem c6_stop_twice_witness :
    (containsKey
        (SeekState.active_seeks
          { active_seeks := [("task-1", true)], dom_thresholds := [],
            screenshot_intervals := [], last_screenshots := [] })
        "task-1" = true) ∧
    ((stop_seek { active_seeks := [("task-1", true)], dom_thresholds := [],
                  screenshot_intervals := [], last_screenshots := [] }
          "task-1").1 = true ∧
     (stop_seek
        (stop_seek { active_seeks := [("task-1", true)], dom_thresholds := [],
                     screenshot_intervals := [], last_screenshots := [] }
            "task-1").2 "task-1").1 = true) :=
  ⟨by decide,
   c6_stop_twice_returns_true_true
     { active_seeks := [("task-1", true)], dom_thresholds := [],
       screenshot_intervals := [], last_screenshots := [] }
     "task-1" (by decide)⟩

/-- **C9** (implicit invariant).  For every state and task id, immediately
after `stop_seek` returns — whatever boolean it returns — `is_seeking` on that
task id is `false`; and `stop_seek` never activates a monitor: any task id
reported seeking after the call was already seeking before it (so repeated
calls keep the monitor inactive and never re-activate one). -/
theorem c9_stop_seek_deactivates (st : SeekState) (task_id : String) :
    is_seeking (stop_seek st task_id).2 task_id = false ∧
    (∀ tid, is_seeking (stop_seek st task_id).2 tid = true →
      is_seeking st tid = true) := by
  by_cases h : containsKey st.active_seeks task_id = true
  · rw [stop_seek_found st task_id h]
    constructor
    · simp [is_seeking, lookupKey_setKey_self st.active_seeks task_id false h]
    · intro tid htid
      by_cases heq : tid = task_id
      · subst heq
        rw [is_seeking, lookupKey_setKey_self st.active_seeks tid false h]
          at htid
        simp at htid
      · rwa [is_seeking,
          lookupKey_setKey_other st.active_seeks task_id tid false heq] at htid
  · have hfalse : containsKey st.active_seeks task_id = false := by
      simpa using h
    have hnone : lookupKey st.active_seeks task_id = none := by
      rcases hlk : lookupKey st.active_seeks task_id with _ | v
      · rfl
      · rw [containsKey, hlk] at hfalse; simp at hfalse
    rw [stop_seek_missing st task_id hfalse]
    constructor
    · simp [is_seeking, hnone]
    · intro tid htid
      exact htid

/-- Witness for C9: stopping `"a"` in a state where `"a"` and `"b"` are both
active leaves `"a"` not seeking, while `"b"`, still seeking afterwards, was
indeed seeking before — both by instantiating `c9_stop_seek_deactivates`. -/
theorem c9_stop_seek_deactivates_witness :
    (is_seeking
        (stop_seek { active_seeks := [("a", true), ("b", true)],
                     dom_thresholds := [], screenshot_intervals := [],
                     last_screenshots := [] } "a").2 "a" = false) ∧
    (is_seeking { active_seeks := [("a", true), ("b", true)],
                  dom_thresholds := [], screenshot_intervals := [],
                  last_screenshots := [] } "b" = true) :=
  ⟨(c9_stop_seek_deactivates
      { active_seeks := [("a", true), ("b", true)], dom_thresholds := [],
        screenshot_intervals := [], last_screenshots := [] } "a").1,
   (c9_stop_seek_deactivates
      { active_seeks := [("a", true), ("b", true)], dom_thresholds := [],
        screenshot_intervals := [], last_screenshots := [] } "a").2 "b"
     (by decide)⟩

/-! ## Monitor-start validation: `_seek_dom_threshold` / `start_dom_seek`

Both generators (seek_mode.py lines 936-997 and 367-456) begin by parsing the
query string `"css_selector|threshold|operator"`: split on the pipe character,
require exactly three parts, convert the stripped second part with Python
`float(...)` (a `ValueError` is caught and reported), and check the stripped
third part against the six comparison operators.  On any of these failures the
generator yields a single `dom_error` event and returns; the monitoring loop
below the parse is never entered. -/

/-- Python `s.split('|')`: cut at every pipe, keeping empty pieces
(so the result always has one more piece than there are pipes). -/
def splitOnPipe : List Char → List (List Char)
  | [] => [[]]
  | c :: r =>
      if c = '|' then [] :: splitOnPipe r
      else
        match splitOnPipe r with
        | [] => [[c]]
        | h :: t => (c :: h) :: t

/-- Python `s.strip()`: drop leading and trailing whitespace. -/
def stripChars (l : List Char) : List Char :=
  ((l.dropWhile Char.isWhitespace).reverse.dropWhile Char.isWhitespace).reverse

/-- Value of a digit run. -/
def digitsVal (ds : List Char) : ℕ :=
  ds.foldl (fun n c => 10 * n + (c.toNat - 48)) 0

/-- Mantissa of a Python float literal: `digits`, `digits.`, `digits.digits`
or `.digits`; returns its value and the unconsumed remainder. -/
def floatMantissa (l : List Char) : Option (ℚ × List Char) :=
  let ip := l.takeWhile Char.isDigit
  let r1 := l.drop ip.length
  match r1 with
  | '.' :: r2 =>
      let fp := r2.takeWhile Char.isDigit
      if ip.isEmpty && fp.isEmpty then none
      else some (((digitsVal ip : ℚ) + (digitsVal fp : ℚ) / 10 ^ fp.length),
                 r2.drop fp.length)
  | _ => if ip.isEmpty then none else some ((digitsVal ip : ℚ), r1)

/-- Exponent suffix of a Python float literal: empty, or `e`/`E` followed by an
optionally signed digit run that consumes the rest of the input. -/
def floatExponent : List Char → Option ℤ
  | [] => some 0
  | c :: r =>
      if c = 'e' ∨ c = 'E' then
        match r with
        | '+' :: r2 =>
            let ds := r2.takeWhile Char.isDigit
            if ds.isEmpty = false ∧ r2.drop ds.length = [] then
              some (digitsVal ds) else none
        | '-' :: r2 =>
            let ds := r2.takeWhile Char.isDigit
            if ds.isEmpty = false ∧ r2.drop ds.length = [] then
              some (-(digitsVal ds : ℤ)) else none
        | r2 =>
            let ds := r2.takeWhile Char.isDigit
            if ds.isEmpty = false ∧ r2.drop ds.length = [] then
              some (digitsVal ds) else none
      else none

/-- Model of Python `float(s)` on the decimal-literal grammar
`[ws] [sign] (digits [. digits] | . digits) [(e|E) [sign] digits] [ws]`,
returning `none` where `float` raises `ValueError`.  (The builtin additionally
accepts `inf`/`nan` spellings and digit-group underscores; monitor thresholds
of that shape are outside the behaviour under scrutiny and are treated as
unparseable here.) -/
def pyFloat (s : String) : Option ℚ :=
  let l := stripChars s.data
  let (sgn, body) : ℚ × List Char :=
    match l with
    | '+' :: r => (1, r)
    | '-' :: r => (-1, r)
    | r => (1, r)
  match floatMantissa body with
  | none => none
  | some (q, rest) =>
      match floatExponent rest with
      | none => none
      | some e => some (sgn * q * (10 : ℚ) ^ e)

/-- The operator allow-list of the DOM-threshold monitors
(seek_mode.py lines 390 / 960). -/
def validOperators : List String := [">", "<", ">=", "<=", "==", "!="]

/-- Result of the query-parsing prologue shared by `start_dom_seek` and
`_seek_dom_threshold`. -/
inductive QueryCheck where
  | invalid (error : String)
  | valid (css_selector : String) (threshold : ℚ) (operator : String)
deriving Repr, DecidableEq

/-- The parse-and-validate prologue of `_seek_dom_threshold`
(seek_mode.py lines 944-967) and `start_dom_seek` (lines 375-397):
split on the pipe; exactly three parts or a format error; `float` the stripped
threshold or a `ValueError` report quoting the raw part; check the stripped
operator against the allow-list.  (`float` is attempted before the operator is
validated, so a query failing both reports the threshold error.) -/
def parseDomQuery (query : String) : QueryCheck :=
  match splitOnPipe query.data with
  | [p0, p1, p2] =>
      match pyFloat (String.mk p1) with
      | none => .invalid ("Invalid threshold value: " ++ String.mk p1)
      | some threshold =>
          let operator := String.mk (stripChars p2)
          if operator ∈ validOperators then
            .valid (String.mk (stripChars p0)) threshold operator
          else
            .invalid ("Invalid operator: " ++ operator ++
              ". Use: >, <, >=, <=, ==, !=")
  | _ => .invalid "Query format should be: 'css_selector|threshold|operator'"

/-- The events a DOM-seek generator can yield. -/
inductive DomSeekEvent where
  | dom_error (error : String)
  | dom_monitoring_started (message : String)
  | threshold_crossed (message : String)
  | dom_status
  | dom_element_not_found (message : String)
  | dom_monitoring_error (error : String)
  | dom_monitoring_stopped
deriving Repr, DecidableEq

/-- The event stream of `SeekMode._seek_dom_threshold`
(seek_mode.py lines 936-1087).  On an invalid query the generator yields a
single `dom_error` and returns.  Otherwise it yields `dom_monitoring_started`
and enters the polling loop; since `_parse_dom_element` (lines 1089-1108)
always reports `success: False`, each iteration yields
`dom_element_not_found`.  `polls` is the number of iterations for which the
cooperative `active_seeks` flag is observed true (a non-continuous monitor
runs its body at most once); when the flag is observed false the loop exits
and the generator yields the terminal `dom_monitoring_stopped`. -/
def seekDomThresholdEvents (query : String) (continuous : Bool) (polls : ℕ) :
    List DomSeekEvent :=
  match parseDomQuery query with
  | .invalid e => [.dom_error e]
  | .valid css thr op =>
      let iters := if continuous then polls else min polls 1
      DomSeekEvent.dom_monitoring_started
          ("Monitoring " ++ css ++ " for value " ++ op ++ " " ++ toString thr) ::
        (List.replicate iters
          (DomSeekEvent.dom_element_not_found ("Element not found: " ++ css)) ++
         [DomSeekEvent.dom_monitoring_stopped])

/-- The event stream and `dom_thresholds` update of `SeekMode.start_dom_seek`
(seek_mode.py lines 367-456): the same parse prologue; on success the config
is stored under the task id before `dom_monitoring_started` is yielded, and
each loop iteration yields the placeholder `dom_monitoring_error`. -/
def startDomSeekEvents (query task_id : String) (continuous : Bool)
    (polls : ℕ) (m : List (String × DomConfig)) :
    List DomSeekEvent × List (String × DomConfig) :=
  match parseDomQuery query with
  | .invalid e => ([.dom_error e], m)
  | .valid css thr op =>
      let m2 := insertKey m task_id
        { css_selector := css, threshold := thr, operator := op,
          last_value := none, threshold_crossed := false }
      let iters := if continuous then polls else min polls 1
      (DomSeekEvent.dom_monitoring_started
          ("Monitoring " ++ css ++ " for value " ++ op ++ " " ++ toString thr) ::
         (List.replicate iters
           (DomSeekEvent.dom_monitoring_error
             "DOM parsing not available - need browser integration") ++
          [DomSeekEvent.dom_monitoring_stopped]), m2)

/-- **C4** (invalid monitor configuration).  For every monitor start whose
query string is structurally invalid — it does not split on the pipe into
exactly three parts, or its threshold part is not parseable as a number, or
its stripped operator part is not one of the six comparison operators — both
DOM-seek generators yield exactly one `dom_error` event and terminate without
yielding any monitoring-loop event (no `started`, no loop iteration, no
`stopped`): the loop never starts, and `start_dom_seek` leaves the stored
threshold configuration untouched, so the invalid configuration is never
retried. -/
theorem c4_invalid_config_single_error (query task_id : String)
    (continuous : Bool) (polls : ℕ) (m : List (String × DomConfig))
    (h : (splitOnPipe query.data).length ≠ 3 ∨
         pyFloat (String.mk ((splitOnPipe query.data).getD 1 [])) = none ∨
         String.mk (stripChars ((splitOnPipe query.data).getD 2 [])) ∉
           validOperators) :
    ∃ e, seekDomThresholdEvents query continuous polls = [.dom_error e] ∧
      startDomSeekEvents query task_id continuous polls m =
        ([.dom_error e], m) := by
  have hinv : ∃ e, parseDomQuery query = .invalid e := by
    by_cases h3 : (splitOnPipe query.data).length = 3
    · obtain ⟨p0, p1, p2, hps⟩ := List.length_eq_three.mp h3
      rw [hps] at h
      rcases h with h | h | h
      · simp at h
      · rw [List.getD_cons_succ, List.getD_cons_zero] at h
        exact ⟨"Invalid threshold value: " ++ String.mk p1,
          by simp [parseDomQuery, hps, h]⟩
      · rcases hf : pyFloat (String.mk p1) with _ | thr
        · exact ⟨"Invalid threshold value: " ++ String.mk p1,
            by simp [parseDomQuery, hps, hf]⟩
        · rw [List.getD_cons_succ, List.getD_cons_succ,
            List.getD_cons_zero] at h
          refine ⟨"Invalid operator: " ++ String.mk (stripChars p2) ++
              ". Use: >, <, >=, <=, ==, !=", ?_⟩
          rw [parseDomQuery, hps]
          simp only [hf]
          rw [if_neg h]
    · rcases hsp : splitOnPipe query.data
        with _ | ⟨a, _ | ⟨b, _ | ⟨c, _ | ⟨d, t⟩⟩⟩⟩ <;>
      · refine ⟨"Query format should be: 'css_selector|threshold|operator'",
          ?_⟩
        first
          | exact absurd (by rw [hsp]; rfl) h3
          | (rw [parseDomQuery, hsp])
  obtain ⟨e, he⟩ := hinv
  exact ⟨e, by rw [seekDomThresholdEvents, he],
            by rw [startDomSeekEvents, he]⟩

/-- Witness for C4: the query `"span.price|abc|>"` splits into three parts but
its threshold part `abc` is not a number, so both generators emit exactly the
single `ValueError` report, by instantiating
`c4_invalid_config_single_error`. -/
theorem c4_invalid_config_single_error_witness :
    ((splitOnPipe ("span.price|abc|>").data).length ≠ 3 ∨
     pyFloat (String.mk ((splitOnPipe ("span.price|abc|>").data).getD 1 [])) =
       none ∨
     String.mk (stripChars ((splitOnPipe ("span.price|abc|>").data).getD 2 []))
       ∉ validOperators) ∧
    (∃ e, seekDomThresholdEvents "span.price|abc|>" true 5 = [.dom_error e] ∧
      startDomSeekEvents "span.price|abc|>" "task-1" true 5 [] =
        ([.dom_error e], [])) :=
  ⟨Or.inr (Or.inl (by decide)),
   c4_invalid_config_single_error "span.price|abc|>" "task-1" true 5 []
     (Or.inr (Or.inl (by decide)))⟩

/-! ## EventHub: `ConnectionManager` (websocket_manager.py)

`active_connections : Dict[str, Set[WebSocket]]` maps a task id to its live
subscribers.  Subscribers are modelled by opaque numeric identifiers and the
outcome of `connection.send_json` by an oracle `ok : ℕ → Bool` (`false` means
the send raises and the `except` branch marks the connection disconnected).
`send_message` (lines 28-41) attempts delivery to every connection of the
task, collects the failing ones, and only afterwards runs `disconnect`
(lines 20-26) on each of them; `disconnect` discards the connection from the
task's set and deletes the key when the set becomes empty. -/

structure ConnectionManager where
  active_connections : List (String × List ℕ)
deriving Repr, DecidableEq

/-- `ConnectionManager.disconnect` (websocket_manager.py lines 20-26). -/
def disconnect (cm : ConnectionManager) (websocket : ℕ) (task_id : String) :
    ConnectionManager :=
  match lookupKey cm.active_connections task_id with
  | none => cm
  | some conns =>
      let conns2 := conns.filter (fun c => c != websocket)
      if conns2 = [] then
        { active_connections := removeKey cm.active_connections task_id }
      else
        { active_connections := setKey cm.active_connections task_id conns2 }

/-- `ConnectionManager.send_message` (websocket_manager.py lines 28-41),
returning the list of connections to which delivery was attempted (in
iteration order) together with the manager state after the call.  Each
attempt is wrapped in `try/except`, so the call itself never raises: a
failing send only lands the connection in the `disconnected` set, which is
cleaned up after the delivery loop. -/
def send_message (ok : ℕ → Bool) (cm : ConnectionManager) (task_id : String) :
    List ℕ × ConnectionManager :=
  match lookupKey cm.active_connections task_id with
  | none => ([], cm)
  | some conns =>
      let disconnected := conns.filter (fun c => !(ok c))
      let cm2 := disconnected.foldl (fun acc c => disconnect acc c task_id) cm
      (conns, cm2)

theorem removeKey_cons {β : Type} (p : String × β) (t : List (String × β))
    (k : String) :
    removeKey (p :: t) k =
      if p.1 = k then removeKey t k else p :: removeKey t k := by
  by_cases hp : p.1 = k <;> simp [removeKey, hp]

theorem lookupKey_removeKey_self {β : Type} (m : List (String × β))
    (k : String) : lookupKey (removeKey m k) k = none := by
  induction m with
  | nil => rfl
  | cons p t ih =>
    rw [removeKey_cons]
    by_cases hp : p.1 = k
    · rw [if_pos hp]; exact ih
    · rw [if_neg hp, lookupKey_cons, if_neg hp]; exact ih

theorem lookupKey_removeKey_other {β : Type} (m : List (String × β))
    (k k' : String) (h : k' ≠ k) :
    lookupKey (removeKey m k) k' = lookupKey m k' := by
  induction m with
  | nil => rfl
  | cons p t ih =>
    rw [removeKey_cons]
    by_cases hp : p.1 = k
    · have hp' : ¬ p.1 = k' := by rw [hp]; exact fun hc => h hc.symm
      rw [if_pos hp, lookupKey_cons, if_neg hp']
      exact ih
    · rw [if_neg hp, lookupKey_cons, lookupKey_cons]
      by_cases hq : p.1 = k'
      · rw [if_pos hq, if_pos hq]
      · rw [if_neg hq, if_neg hq]; exact ih

theorem lookupKey_disconnect_other (cm : ConnectionManager) (c : ℕ)
    (task_id tid : String) (h : tid ≠ task_id) :
    lookupKey (disconnect cm c task_id).active_connections tid =
      lookupKey cm.active_connections tid := by
  rw [disconnect]
  rcases hlk : lookupKey cm.active_connections task_id with _ | conns
  · rfl
  · by_cases h2 : conns.filter (fun x => x != c) = []
    · simp only [h2, if_pos]
      exact lookupKey_removeKey_other _ _ _ h
    · simp only [h2, if_neg, ite_false]
      exact lookupKey_setKey_other _ _ _ _ h

theorem foldl_disconnect_no_entry (task_id : String) (ds : List ℕ)
    (cm : ConnectionManager)
    (h : lookupKey cm.active_connections task_id = none) :
    ds.foldl (fun acc c => disconnect acc c task_id) cm = cm := by
  induction ds with
  | nil => rfl
  | cons d ds ih =>
    have hstep : disconnect cm d task_id = cm := by rw [disconnect, h]
    simpa [hstep] using ih

/-- Effect of the post-loop cleanup of `send_message`: folding `disconnect`
over a removal list `ds`, starting from an entry `conns`, leaves exactly the
survivors (the key itself is deleted if some removal emptied the set) and
touches no other task id. -/
theorem foldl_disconnect_spec (task_id : String) (ds : List ℕ) :
    ∀ (cm : ConnectionManager) (conns : List ℕ),
    lookupKey cm.active_connections task_id = some conns →
    (lookupKey (List.foldl (fun acc c => disconnect acc c task_id)
          cm ds).active_connections task_id =
        (if ds = [] then some conns
         else if conns.filter (fun c => !ds.contains c) = [] then none
         else some (conns.filter (fun c => !ds.contains c)))) ∧
    (∀ tid, tid ≠ task_id →
      lookupKey (List.foldl (fun acc c => disconnect acc c task_id)
          cm ds).active_connections tid = lookupKey cm.active_connections tid) := by
  induction ds with
  | nil => intro cm conns h; exact ⟨by simpa using h, fun tid _ => rfl⟩
  | cons d ds ih =>
    intro cm conns h
    have hfilter : ∀ l : List ℕ,
        (l.filter (fun c => c != d)).filter (fun c => !ds.contains c) =
          l.filter (fun c => !(d :: ds).contains c) := by
      intro l
      rw [List.filter_filter]
      apply List.filter_congr
      intro c _
      by_cases hc : c = d
      · simp [hc]
      · simp [hc, bne_iff_ne, Ne.symm hc]
    by_cases h2 : conns.filter (fun c => c != d) = []
    · have hstep : disconnect cm d task_id =
          { active_connections := removeKey cm.active_connections task_id } := by
        rw [disconnect, h]; simp [h2]
      have hnone : lookupKey (removeKey cm.active_connections task_id)
          task_id = none := lookupKey_removeKey_self _ _
      have hfold := foldl_disconnect_no_entry task_id ds
        { active_connections := removeKey cm.active_connections task_id } hnone
      have hempty : conns.filter (fun c => !(d :: ds).contains c) = [] := by
        rw [← hfilter, h2]; rfl
      constructor
      · simp only [List.foldl_cons, hstep, hfold, hempty]
        simp [hnone]
      · intro tid htid
        simp only [List.foldl_cons, hstep, hfold]
        exact lookupKey_removeKey_other _ _ _ htid
    · have hcont : containsKey cm.active_connections task_id = true := by
        simp [containsKey, h]
      have hstep : disconnect cm d task_id =
          { active_connections := setKey cm.active_connections task_id
              (conns.filter (fun c => c != d)) } := by
        rw [disconnect, h]; simp [h2]
      have hlk2 : lookupKey (setKey cm.active_connections task_id
          (conns.filter (fun c => c != d))) task_id =
          some (conns.filter (fun c => c != d)) :=
        lookupKey_setKey_self _ _ _ hcont
      have hrec := ih ⟨setKey cm.active_connections task_id
          (conns.filter (fun c => c != d))⟩
        (conns.filter (fun c => c != d)) hlk2
      constructor
      · rw [List.foldl_cons, hstep]
        rw [hrec.1, hfilter]
        by_cases hds : ds = []
        · subst hds
          have heq2 : conns.filter (fun c => !([d] : List ℕ).contains c) =
              conns.filter (fun c => c != d) := by
            apply List.filter_congr
            intro c _
            by_cases hc : c = d
            · simp [hc]
            · simp [hc, bne_iff_ne, Ne.symm hc]
          have hne : ¬ ([d] : List ℕ) = [] := by simp
          rw [if_pos rfl, if_neg hne, heq2, if_neg h2]
        · have hne : ¬ (d :: ds) = [] := by simp
          rw [if_neg hds, if_neg hne]
      · intro tid htid
        rw [List.foldl_cons, hstep, hrec.2 tid htid]
        exact lookupKey_setKey_other _ _ _ _ htid

/-- **C7** (best-effort fan-out).  For every task id with registered
subscribers and every pattern of delivery failures: `send_message` attempts
delivery to each subscriber currently registered for that task id, in order
and regardless of failures of the others (first conjunct); the call itself is
a total function — every per-subscriber send is wrapped in `try/except`, so
it never raises; afterwards exactly the failing subscribers have been removed
from the registry for that task id (second conjunct: a subscriber is
registered after the call iff it was registered before and its delivery
succeeded); and no other task id's registrations are touched (third
conjunct). -/
theorem c7_publish_attempts_all_and_prunes_failures (ok : ℕ → Bool)
    (cm : ConnectionManager) (task_id : String) (conns : List ℕ)
    (h : lookupKey cm.active_connections task_id = some conns) :
    (send_message ok cm task_id).1 = conns ∧
    (∀ c : ℕ,
      c ∈ (lookupKey (send_message ok cm task_id).2.active_connections
            task_id).getD [] ↔ (c ∈ conns ∧ ok c = true)) ∧
    (∀ tid, tid ≠ task_id →
      lookupKey (send_message ok cm task_id).2.active_connections tid =
        lookupKey cm.active_connections tid) := by
  have hsm : send_message ok cm task_id =
      (conns, (conns.filter (fun c => !(ok c))).foldl
        (fun acc c => disconnect acc c task_id) cm) := by
    rw [send_message, h]
  have hspec := foldl_disconnect_spec task_id
    (conns.filter (fun c => !(ok c))) cm conns h
  have hsurv : conns.filter
      (fun c => !(conns.filter (fun x => !(ok x))).contains c) =
      conns.filter ok := by
    apply List.filter_congr
    intro c hc
    by_cases hok : ok c = true
    · simp [List.contains_eq_any_beq, List.any_eq_true, List.mem_filter, hok]
    · have hok' : ok c = false := by simpa using hok
      simp [List.contains_eq_any_beq, List.any_eq_true, List.mem_filter,
        hok', hc]
  refine ⟨by rw [hsm], ?_, ?_⟩
  · intro c
    rw [hsm]
    by_cases hfail : conns.filter (fun x => !(ok x)) = []
    · have hall : ∀ x ∈ conns, ok x = true := by
        intro x hx
        by_contra hok
        have hok' : (!(ok x)) = true := by simpa using hok
        have : x ∈ conns.filter (fun x => !(ok x)) :=
          List.mem_filter.mpr ⟨hx, hok'⟩
        rw [hfail] at this
        exact absurd this (List.not_mem_nil x)
      rw [hspec.1]
      simp only [hfail, if_pos rfl, Option.getD_some]
      constructor
      · exact fun hc => ⟨hc, hall c hc⟩
      · exact fun hc => hc.1
    · rw [hspec.1, if_neg hfail, hsurv]
      by_cases hemp : conns.filter ok = []
      · rw [if_pos hemp]
        simp only [Option.getD_none, List.not_mem_nil, false_iff]
        intro hc
        have : c ∈ conns.filter ok := List.mem_filter.mpr ⟨hc.1, hc.2⟩
        rw [hemp] at this
        exact absurd this (List.not_mem_nil c)
      · rw [if_neg hemp]
        simp [List.mem_filter]
  · intro tid htid
    rw [hsm]
    exact hspec.2 tid htid

/-- Witness for C7: task `"t"` has subscribers `[1, 2, 3]` of which `2` fails:
all three are attempted, subscriber `2` alone is pruned, subscribers `1` and
`3` remain, and task `"u"` is untouched — by instantiating
`c7_publish_attempts_all_and_prunes_failures` with the oracle that fails
exactly subscriber `2`. -/
theorem c7_publish_witness :
    ((send_message (fun c => c != 2)
        { active_connections := [("t", [1, 2, 3]), ("u", [7])] } "t").1 =
      [1, 2, 3]) ∧
    (2 ∈ (lookupKey (send_message (fun c => c != 2)
        { active_connections := [("t", [1, 2, 3]), ("u", [7])] }
          "t").2.active_connections "t").getD [] ↔
      (2 ∈ ([1, 2, 3] : List ℕ) ∧ ((2 : ℕ) != 2) = true)) ∧
    (lookupKey (send_message (fun c => c != 2)
        { active_connections := [("t", [1, 2, 3]), ("u", [7])] }
          "t").2.active_connections "u" =
      lookupKey
        (ConnectionManager.active_connections
          { active_connections := [("t", [1, 2, 3]), ("u", [7])] }) "u") :=
  ⟨(c7_publish_attempts_all_and_prunes_failures (fun c => c != 2)
      { active_connections := [("t", [1, 2, 3]), ("u", [7])] } "t" [1, 2, 3]
      (by decide)).1,
   (c7_publish_attempts_all_and_prunes_failures (fun c => c != 2)
      { active_connections := [("t", [1, 2, 3]), ("u", [7])] } "t" [1, 2, 3]
      (by decide)).2.1 2,
   (c7_publish_attempts_all_and_prunes_failures (fun c => c != 2)
      { active_connections := [("t", [1, 2, 3]), ("u", [7])] } "t" [1, 2, 3]
      (by decide)).2.2 "u" (by decide)⟩

/-! ## TaskController: `AgentLoop` (agent_loop.py)

`execute_task` (lines 59-168) is an async generator: it first notifies the
presentation layer (`await self.websocket_manager.send_to_extension(...)`,
line 81), then yields a planning status, obtains a plan from the Planner
collaborator, yields `plan_created`, runs the steps (lines 106-135: on a
failed step of a critical kind it yields `error` and breaks, otherwise it
continues), notifies again (line 141) and yields `task_complete`.

`AgentLoop.__init__` (lines 26-30) sets only `llm`, `current_task`,
`execution_state` and `seek_mode`; no attribute `websocket_manager` is ever
assigned anywhere (the module-level import is bound to the name `ws_manager`),
and `ConnectionManager` has no method `send_to_extension` either.  So the
notification call site raises `AttributeError` deterministically; the
`except Exception` handler (line 152) repeats the same call at line 156 and
re-raises before its own `yield`.  The notification outcome is a parameter
`notify` of the embedding so that both the actual behaviour
(`websocket_manager_send`, always raising) and the intended best-effort
behaviour (`.ok ()`) can be evaluated; all three call sites share it. -/

structure Step where
  id : String
  type : String
  selector : Option String := none
  text : Option String := none
  url : Option String := none
  amount : Option Int := none
  timeout : Option ℕ := none
deriving Repr, DecidableEq, Inhabited

/-- The fields of a step execution result the loop reads:
`result.get("success")` and `result.get("error")`. -/
structure StepResult where
  success : Bool
  error : Option String := none
deriving Repr, DecidableEq

inductive AgentEvent where
  | status (status message : String)
  | plan_created (step_count : ℕ)
  | step_start (step_num total : ℕ)
  | step_complete (step_num total : ℕ) (success : Bool)
  | error (message : String)
  | task_complete
  | task_failed (message : String)
deriving Repr, DecidableEq

inductive PyErr where
  | attributeError (message : String)
deriving Repr, DecidableEq

/-- Outcome of `await self.websocket_manager.send_to_extension(...)` on the
actual object graph: `AgentLoop` has no attribute `websocket_manager`
(agent_loop.py lines 26-30 assign only `llm`, `current_task`,
`execution_state`, `seek_mode`), so the attribute lookup raises. -/
def websocket_manager_send : Except PyErr Unit :=
  .error (.attributeError
    "'AgentLoop' object has no attribute 'websocket_manager'")

/-- The critical-step allow-list of `execute_task`
(agent_loop.py line 128): `step.type in ["navigate", "wait"]`. -/
def criticalTypes : List String := ["navigate", "wait"]

/-- The step loop of `execute_task` (agent_loop.py lines 106-135), numbering
steps from `n`: yield `step_start`, execute, yield `step_complete`; if the
result signals failure and the step kind is critical, yield `error` and break;
otherwise continue with the next step. -/
def runSteps (exec : Step → StepResult) (total : ℕ) :
    ℕ → List Step → List AgentEvent
  | _, [] => []
  | n, s :: rest =>
      let r := exec s
      if r.success = false ∧ s.type ∈ criticalTypes then
        [AgentEvent.step_start n total,
         AgentEvent.step_complete n total r.success,
         AgentEvent.error ("Critical step failed: " ++ r.error.getD "None")]
      else
        AgentEvent.step_start n total ::
          AgentEvent.step_complete n total r.success ::
            runSteps exec total (n + 1) rest

/-- Just the `step_start`/`step_complete` blocks of the step loop (what the
loop emits for the steps it reaches, apart from a final `error`). -/
def stepBlocks (exec : Step → StepResult) (total : ℕ) :
    ℕ → List Step → List AgentEvent
  | _, [] => []
  | n, s :: rest =>
      AgentEvent.step_start n total ::
        AgentEvent.step_complete n total (exec s).success ::
          stepBlocks exec total (n + 1) rest

/-- `AgentLoop.execute_task` (agent_loop.py lines 59-168) as the pair of its
yielded event list and the exception it raises after those events (if any).
The Planner collaborator is abstracted by the already-obtained `plan`; the
StepExecutor collaborator by `exec`.  When `notify` raises, the exception is
caught at line 152 and the handler's own notification call (line 156) raises
again before the handler's `yield`, so the generator dies with the exception
after the events yielded so far. -/
def execute_task (notify : Except PyErr Unit) (plan : List Step)
    (exec : Step → StepResult) : List AgentEvent × Option PyErr :=
  match notify with
  | .error e => ([], some e)
  | .ok _ =>
      let events := AgentEvent.status "planning" "Creating execution plan..." ::
        AgentEvent.plan_created plan.length ::
          runSteps exec plan.length 1 plan
      match notify with
      | .error e => (events, some e)
      | .ok _ => (events ++ [AgentEvent.task_complete], none)

/-- Consume an inner `execute_task` event stream the way
`execute_with_reflection` (agent_loop.py lines 257-278) does: forward each
event; on `task_complete` stop (and return); on `error` stop (retry or fail).
Returns the forwarded events and the terminal event observed, if any. -/
def consumeRun : List AgentEvent → List AgentEvent × Option AgentEvent
  | [] => ([], none)
  | e :: rest =>
      match e with
      | .task_complete => ([AgentEvent.task_complete], some .task_complete)
      | .error m => ([AgentEvent.error m], some (.error m))
      | _ =>
          let t := consumeRun rest
          (e :: t.1, t.2)

/-- The retry loop of `execute_with_reflection` (agent_loop.py lines
245-278), processing the given attempt indices in order.  Events of a
crashed inner generator that were yielded before the crash are forwarded;
the exception surfaces only if the consumer exhausts the stream without
seeing a terminal event (an `error` event makes it break first, abandoning
the rest of the stream). -/
def reflectionLoop (notify : Except PyErr Unit) (planner : ℕ → List Step)
    (exec : Step → StepResult) (max_retries : ℕ) :
    List ℕ → List AgentEvent × Option PyErr
  | [] => ([], none)
  | attempt :: rest =>
      let pre : List AgentEvent :=
        if attempt > 0 then
          [AgentEvent.status "replanning"
            ("Replanning (attempt " ++ toString (attempt + 1) ++ "/" ++
              toString (max_retries + 1) ++ ")...")]
        else []
      let inner := execute_task notify (planner attempt) exec
      let consumed := consumeRun inner.1
      match consumed.2 with
      | some AgentEvent.task_complete => (pre ++ consumed.1, none)
      | some (AgentEvent.error _) =>
          if attempt ≥ max_retries then
            (pre ++ consumed.1 ++
              [AgentEvent.task_failed "Max retries exceeded"], none)
          else
            let t := reflectionLoop notify planner exec max_retries rest
            (pre ++ consumed.1 ++ t.1, t.2)
      | _ =>
          match inner.2 with
          | some e => (pre ++ consumed.1, some e)
          | none =>
              let t := reflectionLoop notify planner exec max_retries rest
              (pre ++ consumed.1 ++ t.1, t.2)

/-- `AgentLoop.execute_with_reflection` (agent_loop.py lines 227-278):
`for attempt in range(max_retries + 1): ...`. -/
def execute_with_reflection (notify : Except PyErr Unit)
    (planner : ℕ → List Step) (exec : Step → StepResult) (max_retries : ℕ) :
    List AgentEvent × Option PyErr :=
  reflectionLoop notify planner exec max_retries (List.range (max_retries + 1))

/-- **C2** (code bug).  The claim — and spec §4.4's guarantee that a failed
state-transition notification must never abort the task — requires
`execute_with_reflection(prompt, taskId, max_retries=2)` to perform 3
planning attempts and emit exactly one terminal `task_failed` when every
critical step fails.  In fact the very first statement of `execute_task`
(line 81) reads `self.websocket_manager`, an attribute that is never
assigned, so an `AttributeError` is raised before any event is yielded; the
`except` handler repeats the same call (line 156) and re-raises.  Evaluated
on the actual notification behaviour, `execute_with_reflection` therefore
propagates the `AttributeError` after zero events — no planning attempt, no
`error` cycle and no `task_failed` — for every planner, step executor and
retry budget. -/
theorem c2_reflection_crashes_before_any_event (planner : ℕ → List Step)
    (exec : Step → StepResult) (max_retries : ℕ) :
    execute_with_reflection websocket_manager_send planner exec max_retries =
      ([], some (PyErr.attributeError
        "'AgentLoop' object has no attribute 'websocket_manager'")) := by
  rw [execute_with_reflection, List.range_succ_eq_map]
  rfl

theorem stepBlocks_append (exec : Step → StepResult) (total : ℕ) :
    ∀ (l1 l2 : List Step) (n : ℕ),
    stepBlocks exec total n (l1 ++ l2) =
      stepBlocks exec total n l1 ++ stepBlocks exec total (n + l1.length) l2 := by
  intro l1
  induction l1 with
  | nil => intro l2 n; simp [stepBlocks]
  | cons s rest ih =>
    intro l2 n
    simp only [List.cons_append, stepBlocks, List.length_cons, List.append_eq]
    rw [ih l2 (n + 1)]
    have : n + (rest.length + 1) = n + 1 + rest.length := by omega
    rw [this]

/-- Prefix decomposition of the step loop: as long as no step both fails and
is critical, the loop emits the blocks of the steps it passes and then
continues on the remainder with the running step number advanced. -/
theorem runSteps_decompose (exec : Step → StepResult) (total : ℕ) :
    ∀ (i : ℕ) (steps : List Step) (n : ℕ), i ≤ steps.length →
    (∀ j, j < i →
      ¬((exec (steps.getD j default)).success = false ∧
        (steps.getD j default).type ∈ criticalTypes)) →
    runSteps exec total n steps =
      stepBlocks exec total n (steps.take i) ++
        runSteps exec total (n + i) (steps.drop i) := by
  intro i
  induction i with
  | zero => intro steps n _ _; simp [stepBlocks]
  | succ i ih =>
    intro steps n hle hreach
    match steps with
    | [] => exact absurd hle (by simp)
    | s :: rest =>
      have h0 := hreach 0 (Nat.succ_pos i)
      rw [List.getD_cons_zero] at h0
      have hrest : runSteps exec total n (s :: rest) =
          AgentEvent.step_start n total ::
            AgentEvent.step_complete n total (exec s).success ::
              runSteps exec total (n + 1) rest := by
        simp only [runSteps]
        rw [if_neg h0]
      have hle2 : i ≤ rest.length := by simpa using hle
      have hreach2 : ∀ j, j < i →
          ¬((exec (rest.getD j default)).success = false ∧
            (rest.getD j default).type ∈ criticalTypes) := by
        intro j hj
        have := hreach (j + 1) (by omega)
        rwa [List.getD_cons_succ] at this
      rw [hrest, ih rest (n + 1) hle2 hreach2]
      simp only [List.take_succ_cons, List.drop_succ_cons, stepBlocks]
      have : n + (i + 1) = n + 1 + i := by omega
      rw [this]
      rfl

/-- **C3** (critical-step dispatch of the step loop, agent_loop.py lines
106-135).  For every plan, step executor and position `i` that the loop
actually reaches (no earlier step both failed and was critical): if step `i`
fails and its kind is in the fixed critical allow-list `["navigate","wait"]`,
the loop emits the step's own events followed by an `error` event and
executes none of the remaining steps (the event stream ends at the `error`);
if step `i` fails but its kind is not in the list, execution continues with
the next step in order (the stream is the blocks up to `i` followed by the
loop restarted on the remaining steps). -/
theorem c3_critical_abort_noncritical_continue (exec : Step → StepResult)
    (steps : List Step) (i : ℕ) (hi : i < steps.length)
    (hreach : ∀ j, j < i →
      ¬((exec (steps.getD j default)).success = false ∧
        (steps.getD j default).type ∈ criticalTypes))
    (hfail : (exec (steps.getD i default)).success = false) :
    ((steps.getD i default).type ∈ criticalTypes →
      runSteps exec steps.length 1 steps =
        stepBlocks exec steps.length 1 (steps.take (i + 1)) ++
          [AgentEvent.error ("Critical step failed: " ++
            (exec (steps.getD i default)).error.getD "None")]) ∧
    ((steps.getD i default).type ∉ criticalTypes →
      runSteps exec steps.length 1 steps =
        stepBlocks exec steps.length 1 (steps.take (i + 1)) ++
          runSteps exec steps.length (i + 2) (steps.drop (i + 1))) := by
  have hdrop : steps.drop i = steps.getD i default :: steps.drop (i + 1) := by
    rw [List.getD_eq_getElem steps default hi]
    exact List.drop_eq_getElem_cons hi
  have htake : steps.take (i + 1) = steps.take i ++ [steps.getD i default] := by
    rw [List.take_succ, List.getD_eq_getElem?_getD]
    cases hq : steps[i]? with
    | none =>
        rw [List.getElem?_eq_none_iff] at hq
        omega
    | some v => rfl
  have hlen : (steps.take i).length = i := by
    rw [List.length_take]
    omega
  constructor
  · intro hcrit
    rw [runSteps_decompose exec steps.length i steps 1 (le_of_lt hi) hreach,
      hdrop]
    have hcritstep : runSteps exec steps.length (1 + i)
        (steps.getD i default :: steps.drop (i + 1)) =
        [AgentEvent.step_start (1 + i) steps.length,
         AgentEvent.step_complete (1 + i) steps.length
           (exec (steps.getD i default)).success,
         AgentEvent.error ("Critical step failed: " ++
           (exec (steps.getD i default)).error.getD "None")] := by
      simp only [runSteps]
      rw [if_pos (And.intro hfail hcrit)]
    rw [hcritstep, htake, stepBlocks_append, hlen]
    simp [stepBlocks, hfail, Nat.add_comm]
  · intro hcrit
    have hreach2 : ∀ j, j < i + 1 →
        ¬((exec (steps.getD j default)).success = false ∧
          (steps.getD j default).type ∈ criticalTypes) := by
      intro j hj
      by_cases hji : j < i
      · exact hreach j hji
      · have hj2 : j = i := by omega
        subst hj2
        exact fun hc => hcrit hc.2
    rw [runSteps_decompose exec steps.length (i + 1) steps 1 hi hreach2]
    have h12 : 1 + (i + 1) = i + 2 := by omega
    rw [h12]

/-- Witness for C3: with a step executor that fails every step with error
`"boom"`, a plan `[navigate, click]` aborts after the failing critical
`navigate` step with an `error` event, while a plan `[click, navigate]`
continues past the failing non-critical `click` step — both by instantiating
`c3_critical_abort_noncritical_continue` at position 0. -/
theorem c3_critical_abort_noncritical_continue_witness :
    (([{ id := "s1", type := "navigate" },
       { id := "s2", type := "click" }] : List Step).getD 0 default).type ∈
        criticalTypes ∧
    (runSteps (fun _ => { success := false, error := some "boom" })
        ([{ id := "s1", type := "navigate" },
          { id := "s2", type := "click" }] : List Step).length 1
        [{ id := "s1", type := "navigate" }, { id := "s2", type := "click" }] =
      stepBlocks (fun _ => { success := false, error := some "boom" })
          ([{ id := "s1", type := "navigate" },
            { id := "s2", type := "click" }] : List Step).length 1
          (([{ id := "s1", type := "navigate" },
             { id := "s2", type := "click" }] : List Step).take (0 + 1)) ++
        [AgentEvent.error ("Critical step failed: " ++
          ((fun (_ : Step) =>
            ({ success := false, error := some "boom" } : StepResult))
              (([{ id := "s1", type := "navigate" },
                 { id := "s2", type := "click" }] : List Step).getD 0
                default)).error.getD "None")]) ∧
    (runSteps (fun _ => { success := false, error := some "boom" })
        ([{ id := "s1", type := "click" },
          { id := "s2", type := "navigate" }] : List Step).length 1
        [{ id := "s1", type := "click" }, { id := "s2", type := "navigate" }] =
      stepBlocks (fun _ => { success := false, error := some "boom" })
          ([{ id := "s1", type := "click" },
            { id := "s2", type := "navigate" }] : List Step).length 1
          (([{ id := "s1", type := "click" },
             { id := "s2", type := "navigate" }] : List Step).take (0 + 1)) ++
        runSteps (fun _ => { success := false, error := some "boom" })
          ([{ id := "s1", type := "click" },
            { id := "s2", type := "navigate" }] : List Step).length (0 + 2)
          (([{ id := "s1", type := "click" },
             { id := "s2", type := "navigate" }] : List Step).drop (0 + 1))) :=
  ⟨by decide,
   (c3_critical_abort_noncritical_continue
      (fun _ => { success := false, error := some "boom" })
      [{ id := "s1", type := "navigate" }, { id := "s2", type := "click" }]
      0 (by decide) (fun j hj => absurd hj (Nat.not_lt_zero j)) rfl).1
     (by decide),
   (c3_critical_abort_noncritical_continue
      (fun _ => { success := false, error := some "boom" })
      [{ id := "s1", type := "click" }, { id := "s2", type := "navigate" }]
      0 (by decide) (fun j hj => absurd hj (Nat.not_lt_zero j)) rfl).2
     (by decide)⟩

def navStep : Step := { id := "s1", type := "navigate" }

/-- Supporting evidence that C2's claim states the code's evident intent:
with the notification call behaving as the spec requires (best-effort,
returning instead of raising) and a step executor that always fails the
plan's critical first step, `execute_with_reflection` with
`max_retries = 2` emits exactly 3 planning-attempt status events and exactly
one terminal `task_failed`, and terminates. -/
theorem reflection_intended_three_attempts_then_task_failed
    (exec : Step → StepResult)
    (hfail : ∀ s, (exec s).success = false) :
    ((execute_with_reflection (.ok ()) (fun _ => [navStep]) exec 2).1.countP
          (fun e => match e with
            | AgentEvent.status "planning" _ => true
            | _ => false) = 3) ∧
    ((execute_with_reflection (.ok ()) (fun _ => [navStep]) exec 2).1.countP
          (fun e => match e with
            | AgentEvent.task_failed _ => true
            | _ => false) = 1) ∧
    ((execute_with_reflection (.ok ()) (fun _ => [navStep]) exec 2).2 =
      none) := by
  rw [execute_with_reflection]
  have hrange : List.range 3 = [0, 1, 2] := by decide
  rw [hrange]
  simp [reflectionLoop, execute_task, runSteps, consumeRun, criticalTypes,
    hfail]

/-! ## Coordinate validation: `find_element_hybrid` (vision.py) and
`PureVisionAgent.execute_task` (pure_vision.py)

`find_element_hybrid` (vision.py lines 349-505) asks the vision model for a
decision and validates its coordinates against the viewport (lines 458-505);
the external network call and JSON repair are abstracted: `decision` is the
parsed model response (`none` when no JSON could be extracted) and
`pure_coords` is the value `find_element_coordinates` would return for the
same query (that helper, lines 157-347, forwards whatever truthy `x`/`y` the
model produced without any bounds check).  The tail of
`PureVisionAgent.execute_task` (pure_vision.py lines 165-184) validates a
parsed click action against the viewport and converts an out-of-bounds click
into a scroll action. -/

structure VLMDecision where
  x : Option Int := none
  y : Option Int := none
  matched_element_index : Option ℕ := none
deriving Repr, DecidableEq

structure DomRect where
  centerX : Int
  centerY : Int
deriving Repr, DecidableEq, Inhabited

structure DomElement where
  rect : DomRect
deriving Repr, DecidableEq, Inhabited

inductive HybridResult where
  | success (x y : Int) (method : String)
  | failure (error : String)
deriving Repr, DecidableEq

/-- Python truthiness of `decision.get('x')`: absent (`None`) and `0` are
falsy. -/
def truthyInt : Option Int → Bool
  | none => false
  | some v => v != 0

/-- `find_element_hybrid` (vision.py lines 349-505) after the model response
has been parsed into `decision`.  `dom_elements = dom_snapshot.get
('elements', [])`; with no DOM data the pure-vision result is forwarded
unvalidated (method `vision_fallback`).  A truthy decision is bounds-checked;
out-of-bounds coordinates divert to the DOM element's own viewport
coordinates when a matched index is valid and those are in bounds, and
otherwise to the pure-vision fallback, whose coordinates are forwarded
without a bounds check (method `pure_vision_fallback`). -/
def find_element_hybrid (dom_elements : List DomElement)
    (decision : Option VLMDecision) (pure_coords : Option (Int × Int))
    (viewport_width viewport_height : Int) : HybridResult :=
  if dom_elements.isEmpty then
    match pure_coords with
    | some (px, py) => .success px py "vision_fallback"
    | none => .failure "Element not found"
  else
    match decision with
    | none => .failure "Failed to parse AI response"
    | some dec =>
        if truthyInt dec.x && truthyInt dec.y then
          if dec.x.getD 0 < 0 ∨ dec.y.getD 0 < 0 ∨
              dec.x.getD 0 ≥ viewport_width ∨
              dec.y.getD 0 ≥ viewport_height then
            match dec.matched_element_index with
            | some idx =>
                if idx < dom_elements.length then
                  if 0 ≤ (dom_elements.getD idx default).rect.centerX ∧
                      (dom_elements.getD idx default).rect.centerX <
                        viewport_width ∧
                      0 ≤ (dom_elements.getD idx default).rect.centerY ∧
                      (dom_elements.getD idx default).rect.centerY <
                        viewport_height then
                    .success (dom_elements.getD idx default).rect.centerX
                      (dom_elements.getD idx default).rect.centerY
                      "hybrid_vision_dom"
                  else
                    match pure_coords with
                    | some (px, py) => .success px py "pure_vision_fallback"
                    | none =>
                        .failure "Element not visible in viewport. Try scrolling."
                else
                  match pure_coords with
                  | some (px, py) => .success px py "pure_vision_fallback"
                  | none =>
                      .failure "Element not found in viewport. Try scrolling."
            | none =>
                match pure_coords with
                | some (px, py) => .success px py "pure_vision_fallback"
                | none =>
                    .failure "Element not found in viewport. Try scrolling."
          else
            .success (dec.x.getD 0) (dec.y.getD 0) "hybrid_vision_dom"
        else
          match pure_coords with
          | some (px, py) => .success px py "pure_vision_fallback"
          | none => .failure "Element not found by hybrid or vision analysis"

/-- The parsed action dict of `PureVisionAgent.execute_task`. -/
structure PVAction where
  action : String
  x : Option Int := none
  y : Option Int := none
  amount : Option Int := none
  reasoning : String := ""
deriving Repr, DecidableEq

/-- The coordinate-validation tail of `PureVisionAgent.execute_task`
(pure_vision.py lines 168-183): `x, y = action.get("x", 0),
action.get("y", 0)`; an out-of-bounds click is replaced by a
scroll-by-500 action. -/
def validate_vlm_action (action : PVAction) (width height : Int) : PVAction :=
  if action.action = "click" then
    if action.x.getD 0 ≥ width ∨ action.y.getD 0 ≥ height ∨
        action.x.getD 0 < 0 ∨ action.y.getD 0 < 0 then
      { action := "scroll", amount := some 500,
        reasoning := "Coordinates " ++ toString (action.x.getD 0) ++ "," ++
          toString (action.y.getD 0) ++
          " outside viewport, scrolling to find element" }
    else action
  else action

/-- **C8, counterexample.**  The claim states that out-of-bounds resolver
coordinates are never returned as a successful result before any coordinate
reaches the step executor.  In fact only the *primary* hybrid decision is
bounds-checked: when the hybrid decision `(5000, 5000)` against a 1920×1080
viewport is rejected and the pure-vision fallback is consulted, the
fallback's own coordinates — here again `(5000, 5000)` — are returned as a
successful result without any validation. -/
theorem c8_counterexample :
    find_element_hybrid [{ rect := { centerX := 100, centerY := 100 } }]
        (some { x := some 5000, y := some 5000,
                matched_element_index := none })
        (some (5000, 5000)) 1920 1080 =
      HybridResult.success 5000 5000 "pure_vision_fallback" ∧
    ((5000 : Int) ≥ 1920 ∧ (5000 : Int) ≥ 1080) := by
  decide

/-- **C8, amended.**  The primary coordinate decision of the hybrid resolver
is bounds-validated: every successful result carrying the primary method
`hybrid_vision_dom` — the model's own coordinates, or the matched DOM
element's coordinates substituted for an out-of-bounds decision — lies
strictly inside the viewport (first conjunct).  An out-of-bounds primary
decision is therefore never returned as such; it diverts to the documented
fallback order (DOM coordinates, then pure resolver, then a
try-scrolling/not-found result).  Coordinates produced by the pure-vision
fallback paths (`pure_vision_fallback`, `vision_fallback`), however, are
forwarded without revalidation.  In `pure_vision.execute_task` an
out-of-bounds click action is replaced by a scroll-by-500 action (second
conjunct), so a click reaching the executor always has in-viewport
coordinates (third conjunct). -/
theorem c8_primary_validation_and_scroll_fallback :
    (∀ (dom_elements : List DomElement) (dec : Option VLMDecision)
        (pure_coords : Option (Int × Int)) (w h x y : Int),
      find_element_hybrid dom_elements dec pure_coords w h =
        HybridResult.success x y "hybrid_vision_dom" →
      0 ≤ x ∧ x < w ∧ 0 ≤ y ∧ y < h) ∧
    (∀ (act : PVAction) (w h : Int),
      act.action = "click" →
      (act.x.getD 0 ≥ w ∨ act.y.getD 0 ≥ h ∨
        act.x.getD 0 < 0 ∨ act.y.getD 0 < 0) →
      (validate_vlm_action act w h).action = "scroll") ∧
    (∀ (act : PVAction) (w h : Int),
      (validate_vlm_action act w h).action = "click" →
      0 ≤ (validate_vlm_action act w h).x.getD 0 ∧
      (validate_vlm_action act w h).x.getD 0 < w ∧
      0 ≤ (validate_vlm_action act w h).y.getD 0 ∧
      (validate_vlm_action act w h).y.getD 0 < h) := by
  refine ⟨?_, ?_, ?_⟩
  · intro doms dec pv w h x y hres
    rw [find_element_hybrid.eq_def] at hres
    by_cases hd : doms.isEmpty = true
    · rw [if_pos hd] at hres
      rcases pv with _ | ⟨px, py⟩
      · simp at hres
      · dsimp only at hres
        injection hres with h1 h2 h3
        exact absurd h3 (by decide)
    · rw [if_neg hd] at hres
      rcases dec with _ | dec
      · simp at hres
      · dsimp only at hres
        by_cases ht : (truthyInt dec.x && truthyInt dec.y) = true
        · rw [if_pos ht] at hres
          by_cases hoob : dec.x.getD 0 < 0 ∨ dec.y.getD 0 < 0 ∨
              dec.x.getD 0 ≥ w ∨ dec.y.getD 0 ≥ h
          · rw [if_pos hoob] at hres
            rcases hmi : dec.matched_element_index with _ | idx
            · rw [hmi] at hres
              dsimp only at hres
              rcases pv with _ | ⟨px, py⟩
              · simp at hres
              · dsimp only at hres
                injection hres with h1 h2 h3
                exact absurd h3 (by decide)
            · rw [hmi] at hres
              dsimp only at hres
              by_cases hlen : idx < doms.length
              · rw [if_pos hlen] at hres
                by_cases hib : 0 ≤ (doms.getD idx default).rect.centerX ∧
                    (doms.getD idx default).rect.centerX < w ∧
                    0 ≤ (doms.getD idx default).rect.centerY ∧
                    (doms.getD idx default).rect.centerY < h
                · rw [if_pos hib] at hres
                  injection hres with h1 h2 h3
                  subst h1; subst h2
                  exact ⟨hib.1, hib.2.1, hib.2.2.1, hib.2.2.2⟩
                · rw [if_neg hib] at hres
                  rcases pv with _ | ⟨px, py⟩
                  · simp at hres
                  · dsimp only at hres
                    injection hres with h1 h2 h3
                    exact absurd h3 (by decide)
              · rw [if_neg hlen] at hres
                rcases pv with _ | ⟨px, py⟩
                · simp at hres
                · dsimp only at hres
                  injection hres with h1 h2 h3
                  exact absurd h3 (by decide)
          · rw [if_neg hoob] at hres
            injection hres with h1 h2 h3
            subst h1; subst h2
            push_neg at hoob
            exact ⟨hoob.1, hoob.2.2.1, hoob.2.1, hoob.2.2.2⟩
        · rw [if_neg ht] at hres
          rcases pv with _ | ⟨px, py⟩
          · simp at hres
          · dsimp only at hres
            injection hres with h1 h2 h3
            exact absurd h3 (by decide)
  · intro act w h hclick hoob
    rw [validate_vlm_action, if_pos hclick, if_pos hoob]
  · intro act w h hres
    rw [validate_vlm_action] at hres ⊢
    by_cases hclick : act.action = "click"
    · rw [if_pos hclick] at hres ⊢
      by_cases hoob : act.x.getD 0 ≥ w ∨ act.y.getD 0 ≥ h ∨
          act.x.getD 0 < 0 ∨ act.y.getD 0 < 0
      · rw [if_pos hoob] at hres
        simp at hres
      · rw [if_neg hoob] at hres ⊢
        push_neg at hoob
        exact ⟨hoob.2.2.1, hoob.1, hoob.2.2.2, hoob.2.1⟩
    · rw [if_neg hclick] at hres
      exact absurd hres hclick

/-- Witness for C8 (amended): an in-viewport hybrid decision `(500, 400)` is
returned with the primary method and proven in bounds by the first conjunct
of `c8_primary_validation_and_scroll_fallback`; an out-of-bounds click
`(5000, 5000)` against 1920×1080 is rewritten to a scroll action by its
second conjunct. -/
theorem c8_primary_validation_witness :
    (find_element_hybrid [{ rect := { centerX := 100, centerY := 100 } }]
        (some { x := some 500, y := some 400,
                matched_element_index := none })
        none 1920 1080 = HybridResult.success 500 400 "hybrid_vision_dom") ∧
    ((0 : Int) ≤ 500 ∧ (500 : Int) < 1920 ∧ (0 : Int) ≤ 400 ∧
      (400 : Int) < 1080) ∧
    ((validate_vlm_action
        { action := "click", x := some 5000, y := some 5000 }
        1920 1080).action = "scroll") :=
  ⟨by decide,
   (c8_primary_validation_and_scroll_fallback.1
      [{ rect := { centerX := 100, centerY := 100 } }]
      (some { x := some 500, y := some 400, matched_element_index := none })
      none 1920 1080 500 400 (by decide)),
   (c8_primary_validation_and_scroll_fallback.2.1
      { action := "click", x := some 5000, y := some 5000 } 1920 1080
      rfl (by decide))⟩

/-! ## `SeekMode._extract_numerical_value` (seek_mode.py lines 1110-1121)

The effective (second) definition removes the characters `% $ , € £ ¥` with
`re.sub`, then searches for the leftmost match of the regular expression
`-?\d+(?:\.\d+)?` and converts it with `float`.  The embedding represents the
regex engine explicitly: `numAt` is one match attempt at a position (optional
minus sign, a maximal nonempty digit run, and an optional fraction taken only
when the dot is followed by at least one digit — the regex's greedy,
backtracking-free behaviour on this pattern), `searchNum` advances position
by position as `re.search` does, and `matchValue` is the exact rational value
of the matched literal (the model of `float`).  The whole function is a total
Lean function: the wrapped `ValueError`/`AttributeError` of the source cannot
occur because `float` is only applied to strings the regex matched. -/

structure NumMatch where
  neg : Bool
  intPart : List Char
  fracPart : List Char
deriving Repr, DecidableEq

/-- Match of `\d+(?:\.\d+)?` at the start of `rest`, with the sign already
consumed:  fails unless a digit run starts `rest`; the fractional group is
taken exactly when a dot followed by at least one digit comes next. -/
def numAtCore (neg : Bool) (rest : List Char) : Option NumMatch :=
  let ds := rest.takeWhile Char.isDigit
  if ds.isEmpty then none
  else
    let rest2 := rest.drop ds.length
    if rest2.head? = some '.' then
      let fs := rest2.tail.takeWhile Char.isDigit
      if fs.isEmpty then some ⟨neg, ds, []⟩ else some ⟨neg, ds, fs⟩
    else some ⟨neg, ds, []⟩

/-- Match of `-?\d+(?:\.\d+)?` anchored at the start of `l`. -/
def numAt (l : List Char) : Option NumMatch :=
  if l.head? = some '-' then numAtCore true l.tail
  else numAtCore false l

/-- `re.search`: the leftmost position at which `numAt` succeeds wins. -/
def searchNum : List Char → Option NumMatch
  | [] => none
  | c :: r =>
      match numAt (c :: r) with
      | some m => some m
      | none => searchNum r

/-- `re.sub(r'[%$,€£¥]', '', text)`. -/
def stripSymbols (l : List Char) : List Char :=
  l.filter (fun c => !((['%', '$', ',', '€', '£', '¥'] : List Char).contains c))

/-- Exact value of the matched literal (`float(match.group())`). -/
def matchValue (m : NumMatch) : ℚ :=
  (if m.neg then -1 else 1) *
    ((digitsVal m.intPart : ℚ) +
      (digitsVal m.fracPart : ℚ) / 10 ^ m.fracPart.length)

/-- `SeekMode._extract_numerical_value` (seek_mode.py lines 1110-1121, the
later definition in the class body, which shadows the earlier one at lines
458-468 that additionally stripped whitespace). -/
def extract_numerical_value (text : String) : Option ℚ :=
  (searchNum (stripSymbols text.data)).map matchValue

theorem numAt_nil : numAt [] = none := rfl

theorem searchNum_eq_none_iff (l : List Char) :
    searchNum l = none ↔ ∀ i, numAt (l.drop i) = none := by
  induction l with
  | nil =>
    simp only [searchNum, true_iff]
    intro i
    rw [List.drop_nil]
    rfl
  | cons c r ih =>
    rcases hn : numAt (c :: r) with _ | m
    · simp only [searchNum, hn]
      constructor
      · intro hs i
        match i with
        | 0 => exact hn
        | j + 1 => exact (ih.mp hs) j
      · intro hall
        exact ih.mpr (fun j => hall (j + 1))
    · simp only [searchNum, hn]
      constructor
      · intro hc; exact absurd hc (by simp)
      · intro hall
        have := hall 0
        rw [List.drop_zero, hn] at this
        exact absurd this (by simp)

theorem searchNum_eq_some (l : List Char) (m : NumMatch)
    (h : searchNum l = some m) :
    ∃ i, numAt (l.drop i) = some m ∧
      ∀ j, j < i → numAt (l.drop j) = none := by
  induction l with
  | nil => exact absurd h (by simp [searchNum])
  | cons c r ih =>
    rcases hn : numAt (c :: r) with _ | m2
    · rw [searchNum, hn] at h
      obtain ⟨i, hi1, hi2⟩ := ih h
      refine ⟨i + 1, by simpa using hi1, ?_⟩
      intro j hj
      match j with
      | 0 => exact hn
      | k + 1 =>
          rw [List.drop_succ_cons]
          exact hi2 k (by omega)
    · rw [searchNum, hn] at h
      refine ⟨0, ?_, fun j hj => absurd hj (Nat.not_lt_zero j)⟩
      rw [List.drop_zero, hn]
      exact h

theorem numAtCore_of_digit (neg : Bool) (c : Char) (r : List Char)
    (h : c.isDigit = true) : numAtCore neg (c :: r) ≠ none := by
  have hne : ((c :: r).takeWhile Char.isDigit).isEmpty = false := by
    rw [List.takeWhile_cons, if_pos h]
    rfl
  rw [numAtCore.eq_def]
  dsimp only
  rw [hne, if_neg (show ¬(false = true) by decide)]
  split
  · split <;> simp
  · simp

theorem numAt_of_digit_head (c : Char) (r : List Char)
    (h : c.isDigit = true) : numAt (c :: r) ≠ none := by
  rw [numAt]
  have hnotminus : ¬ (c :: r).head? = some '-' := by
    simp only [List.head?_cons, Option.some.injEq]
    intro hc
    subst hc
    exact absurd h (by decide)
  rw [if_neg hnotminus]
  exact numAtCore_of_digit false c r h

theorem numAtCore_no_digit (neg : Bool) (l : List Char)
    (h : ∀ c ∈ l, c.isDigit = false) : numAtCore neg l = none := by
  have hemp : (l.takeWhile Char.isDigit).isEmpty = true := by
    rcases l with _ | ⟨c, r⟩
    · rfl
    · rw [List.takeWhile_cons, if_neg (by simp [h c (by simp)])]
      rfl
  simp [numAtCore, hemp]

theorem numAt_no_digit (l : List Char)
    (h : ∀ c ∈ l, c.isDigit = false) : numAt l = none := by
  rw [numAt]
  by_cases hm : l.head? = some '-'
  · rw [if_pos hm]
    refine numAtCore_no_digit true l.tail (fun c hc => h c ?_)
    exact List.mem_of_mem_tail hc
  · rw [if_neg hm]
    exact numAtCore_no_digit false l h

/-- **C10** (implicit safety).  `_extract_numerical_value` is a total
function from strings to an optional rational (it cannot raise: the guarded
`float` conversion is only applied to regex-matched literals), and: it
returns `none` exactly when the regex matches at no position of the
symbol-stripped string (first conjunct), equivalently exactly when the
stripped string contains no digit at all (second conjunct); and any returned
value is the value of the match at the first position where the
sign-optional decimal-number grammar matches — every earlier position fails
(third conjunct). -/
theorem c10_extract_numerical_value_spec (s : String) :
    (extract_numerical_value s = none ↔
      ∀ i, numAt ((stripSymbols s.data).drop i) = none) ∧
    (extract_numerical_value s = none ↔
      ∀ c ∈ stripSymbols s.data, c.isDigit = false) ∧
    (∀ v, extract_numerical_value s = some v →
      ∃ i, (numAt ((stripSymbols s.data).drop i)).map matchValue = some v ∧
        ∀ j, j < i → numAt ((stripSymbols s.data).drop j) = none) := by
  have hnone : extract_numerical_value s = none ↔
      searchNum (stripSymbols s.data) = none := by
    rw [extract_numerical_value]
    exact Option.map_eq_none'
  refine ⟨hnone.trans (searchNum_eq_none_iff _), ?_, ?_⟩
  · rw [hnone, searchNum_eq_none_iff]
    constructor
    · intro hall c hc
      by_contra hdig
      have hdig2 : c.isDigit = true := by simpa using hdig
      obtain ⟨i, hi, hci⟩ := List.mem_iff_getElem.mp hc
      have hdrop : (stripSymbols s.data).drop i =
          c :: (stripSymbols s.data).drop (i + 1) := by
        rw [← hci]
        exact List.drop_eq_getElem_cons hi
      have := hall i
      rw [hdrop] at this
      exact absurd this (numAt_of_digit_head c _ hdig2)
    · intro hall i
      refine numAt_no_digit _ (fun c hc => hall c ?_)
      exact List.mem_of_mem_drop hc
  · intro v hv
    rw [extract_numerical_value] at hv
    rcases hm : searchNum (stripSymbols s.data) with _ | m
    · rw [hm] at hv
      exact absurd hv (by simp)
    · rw [hm] at hv
      obtain ⟨i, hi1, hi2⟩ := searchNum_eq_some _ m hm
      refine ⟨i, ?_, hi2⟩
      rw [hi1]
      simpa using hv

/-- Witness for C10: `"Change: -12.5% today"` — after symbol removal the
first match is `-12.5`, so the extraction returns `-12.5 = -25/2`, and the
match position returned by instantiating `c10_extract_numerical_value_spec`
is preceded only by failing positions. -/
theorem c10_extract_numerical_value_witness :
    (extract_numerical_value "Change: -12.5% today" = some (-25/2)) ∧
    (∃ i, (numAt ((stripSymbols ("Change: -12.5% today").data).drop i)).map
        matchValue = some (-25/2) ∧
      ∀ j, j < i →
        numAt ((stripSymbols ("Change: -12.5% today").data).drop j) = none) := by
  have hsearch : searchNum (stripSymbols ("Change: -12.5% today").data) =
      some ⟨true, ['1', '2'], ['5']⟩ := by decide
  have hd1 : digitsVal ['1', '2'] = 12 := by decide
  have hd2 : digitsVal ['5'] = 5 := by decide
  have hval : matchValue ⟨true, ['1', '2'], ['5']⟩ = -25/2 := by
    rw [matchValue]
    dsimp only
    rw [hd1, hd2]
    norm_num
  have h1 : extract_numerical_value "Change: -12.5% today" = some (-25/2) := by
    rw [extract_numerical_value, hsearch, Option.map_some', hval]
  exact ⟨h1,
    (c10_extract_numerical_value_spec "Change: -12.5% today").2.2 (-25/2) h1⟩

end Foxxy
